import Mathlib

/-!
Verification of the traffic approach-volume harvester
(`Traffic_Data/fetch_volume.py` and the sibling coordinator copies).

The development shallowly embeds the pure content of the program:

* timestamps are integers counting seconds (Python `datetime` arithmetic at
  the granularity of the `%S`-bearing timestamp format); `timedelta(minutes=m)`
  becomes `60 * m` seconds;
* the HTTP transport is an oracle `Nat → AttemptResult` giving the outcome
  of each successive POST attempt, and `robust_post` is a function of that
  oracle producing the returned result together with the bookkeeping the
  claims mention (number of attempts made, back-off delays applied);
* a response body is abstracted to the list of bordered metric tables that
  `soup.find_all('table', ...)` yields, each table being the list of its
  `<td>` cell texts (already `get_text(strip=True)`-stripped);
* fallible Python operations (`int(...)`, reading `response.text()`) are
  `Except`-valued; a raised exception is an `Except.error`;
* the CSV sink is the list of lines written, in the order the sequential
  model appends them.

Loops whose Python form is a `while` are embedded structurally over a fuel
argument that provably dominates the iteration count, so that every
definition evaluates inside the kernel.
-/

/-! ## Definitions -/

/-- Core loop of `create_time_intervals`:
`while current_start < total_end: current_end = current_start + step;
if current_end > total_end: current_end = total_end; append; advance`.
The loop runs at most `(e - cur).toNat` times whenever `0 < step`
(each iteration advances `cur` by at least one), which is the fuel
`create_time_intervals` supplies.  For `step ≤ 0` the Python loop does
not terminate; no theorem below concerns that case. -/
def tileAux (e step : Int) : Nat → Int → List (Int × Int)
  | 0, _ => []
  | fuel + 1, cur =>
    if cur < e then
      let nxt : Int := if cur + step > e then e else cur + step
      (cur, nxt) :: tileAux e step fuel nxt
    else []

/-- The function `create_time_intervals(total_start, total_end, interval_minutes)`:
tiles the range stepping by `timedelta(minutes=interval_minutes)`,
i.e. `60 * interval_minutes` seconds.  (The Python function formats each
bound with `strftime`; the embedding keeps the timestamps themselves,
which the format renders injectively at second granularity.) -/
def create_time_intervals (total_start total_end interval_minutes : Int) :
    List (Int × Int) :=
  tileAux total_end (60 * interval_minutes) (total_end - total_start).toNat
    total_start

/-- Ceiling division on naturals: the value of `⌈n / k⌉` for `k > 0`. -/
def natCeilDiv (n k : Nat) : Nat := (n + k - 1) / k

/-- The pairs form a contiguous chain starting at `s`: the first pair's
start is `s` and each subsequent pair's start is the previous pair's end. -/
def chainFrom (s : Int) : List (Int × Int) → Bool
  | [] => true
  | p :: rest => p.1 == s && chainFrom p.2 rest

/-- Outcome of a single `session.post` attempt, as the `try` block of
`robust_post` observes it: a response carrying a status code, an
`asyncio.TimeoutError`, or any other exception. -/
inductive AttemptResult
  | resp (status : Nat)
  | timeout
  | otherError
deriving DecidableEq

/-- The status codes of the `elif response.status in [429, 500, 502, 503, 504]`
branch of `robust_post`: recoverable server-side or rate-limit errors. -/
def retryableStatus (s : Nat) : Bool :=
  s == 429 || s == 500 || s == 502 || s == 503 || s == 504

/-- An attempt outcome after which `robust_post` falls through to the
back-off/retry footer of its loop body: a retryable status, a timeout, or
any other exception.  (A 200 response returns; any other status returns
`None` at once.) -/
def retryable : AttemptResult → Bool
  | .resp s => decide (s ≠ 200) && retryableStatus s
  | .timeout => true
  | .otherError => true

/-- How one iteration of the `robust_post` loop body dispatches on the
attempt's outcome: `return response` (status 200), fall through to the
retry footer (retryable status / timeout / other exception), or
`return None` immediately (any other status). -/
inductive StepKind
  | succeeded
  | retry
  | terminal (status : Nat)
deriving DecidableEq

/-- Classifies an attempt outcome according to the `if/elif/else` and
`except` arms of the `robust_post` loop body. -/
def classifyAttempt : AttemptResult → StepKind
  | .resp s =>
    if s == 200 then .succeeded
    else if retryableStatus s then .retry
    else .terminal s
  | .timeout => .retry
  | .otherError => .retry

/-- What `robust_post` returned: the response obtained on a given attempt
(the `response.status == 200` arm), `None` at once because of a
non-retryable status (the `else` arm), or `None` after exhausting all
retries (falling out of the `while` loop). -/
inductive PostResult
  | success (attempt : Nat)
  | terminalFailure (attempt : Nat) (status : Nat)
  | retriesExhausted
deriving DecidableEq

/-- A run of `robust_post` together with the observable bookkeeping the
claims mention: the returned result, how many attempts were made, and the
back-off delays (`backoff_factor ** (attempt - 1)`) that were slept, in
order. -/
structure PostTrace where
  result : PostResult
  attempts : Nat
  sleeps : List ℚ
deriving DecidableEq

/-- The `while attempt <= max_retries` loop of `robust_post`, run from
attempt number `attempt` with `remaining = max_retries + 1 - attempt`
loop iterations still permitted (so the loop guard `attempt <= max_retries`
is exactly `remaining > 0`).  After a fallen-through attempt the source
increments `attempt` and sleeps `backoff_factor ** (attempt - 1)` only if
`attempt <= max_retries` still holds, i.e. only if an iteration remains. -/
def robustPostAux (oracle : Nat → AttemptResult) (backoff : ℚ) :
    Nat → Nat → PostTrace
  | _, 0 => ⟨.retriesExhausted, 0, []⟩
  | attempt, remaining + 1 =>
    match classifyAttempt (oracle attempt) with
    | .succeeded => ⟨.success attempt, 1, []⟩
    | .terminal s => ⟨.terminalFailure attempt s, 1, []⟩
    | .retry =>
      match remaining with
      | 0 => ⟨.retriesExhausted, 1, []⟩
      | _ + 1 =>
        let t := robustPostAux oracle backoff (attempt + 1) remaining
        ⟨t.result, t.attempts + 1, backoff ^ attempt :: t.sleeps⟩

/-- The call `robust_post(session, url, data, headers, max_retries, backoff_factor)`:
attempt numbering starts at 1 and the loop admits `max_retries` iterations.
The `oracle` gives the outcome each attempt would observe. -/
def robust_post (oracle : Nat → AttemptResult) (max_retries : Nat)
    (backoff_factor : ℚ) : PostTrace :=
  robustPostAux oracle backoff_factor 1 max_retries

/-- Lower-casing as `str.lower()` acts on the ASCII labels at hand. -/
def pyLower (s : String) : String := ⟨s.data.map Char.toLower⟩

/-- Whether `n` occurs at the start of `h` (character-list view). -/
def listStartsWith : List Char → List Char → Bool
  | [], _ => true
  | _ :: _, [] => false
  | a :: as, b :: bs => a == b && listStartsWith as bs

/-- Whether `n` occurs contiguously somewhere in `h`. -/
def listOccurs (n : List Char) : List Char → Bool
  | [] => listStartsWith n []
  | h@(_ :: t) => listStartsWith n h || listOccurs n t

/-- The Python substring test `needle in hay`. -/
def pyIn (needle hay : String) : Bool := listOccurs needle.data hay.data

/-- The four accumulator variables `wb_total_volume` … `sb_total_volume`
during the table scan, each holding the raw cell text it was assigned
(`None` while unassigned). -/
structure ScanState where
  wb : Option String
  eb : Option String
  nb : Option String
  sb : Option String
deriving DecidableEq

/-- The state in which all four accumulators are still `None`. -/
def emptyScan : ScanState := ⟨none, none, none, none⟩

/-- One label/value cell pair processed by the `if/elif` chain of the table
scan: `metric = cols[0].get_text(strip=True).lower()`,
`value = cols[1].get_text(strip=True)`, then each direction phrase is
tested by substring containment and assigned only when still `None`. -/
def scanPair (st : ScanState) (metric value : String) : ScanState :=
  let m := pyLower metric
  if pyIn "westbound total volume" m && st.wb == none then
    { st with wb := some value }
  else if pyIn "eastbound total volume" m && st.eb == none then
    { st with eb := some value }
  else if pyIn "northbound total volume" m && st.nb == none then
    { st with nb := some value }
  else if pyIn "southbound total volume" m && st.sb == none then
    { st with sb := some value }
  else st

/-- The `for i in range(0, len(tds), 2)` walk over one table's `<td>` texts:
consecutive cells are consumed two at a time and a trailing odd cell
(`len(cols) < 2`) is skipped. -/
def scanCells (st : ScanState) : List String → ScanState
  | a :: b :: rest => scanCells (scanPair st a b) rest
  | _ => st

/-- The outer `for table in tables` loop: scans every bordered metric
table's cells in document order. -/
def extractScan (tables : List (List String)) : ScanState :=
  tables.foldl scanCells emptyScan

/-- The non-decimal digit characters of Python's `str.isdigit()` class
within the Latin-1 repertoire: the superscript digits.  Python's full
class is the Unicode `Numeric_Type=Digit` set; restricted to Latin-1 it is
exactly the ASCII digits together with these three, which is the portion
this model covers, so the model of `isdigit` is exact on Latin-1 strings
(`latin1Str`) and string-universal theorems restrict themselves to those. -/
def pySuperscriptDigit (c : Char) : Bool :=
  c == '¹' || c == '²' || c == '³'

/-- Python `str.isdigit()`: true exactly when the string is non-empty and
every character is a Unicode digit.  Crucially this class is wider than
what `int(...)` converts: `"²".isdigit()` holds while `int("²")` raises
`ValueError`. -/
def pyIsDigit (s : String) : Bool :=
  !s.isEmpty && s.data.all (fun c => c.isDigit || pySuperscriptDigit c)

/-- Whether every character lies in the Latin-1 repertoire, on which this
model of `str.isdigit()` is exact. -/
def latin1Str (s : String) : Bool := s.data.all (fun c => c.toNat < 256)

/-- The expression `volume.replace(',', '')`: drops every thousands separator. -/
def stripCommas (s : String) : String := ⟨s.data.filter (fun c => c ≠ ',')⟩

/-- Non-empty strings of ASCII decimal digits: among the shapes that can
reach `int(...)` here, exactly the ones it converts.  `int` rejects —
raising `ValueError` — the non-decimal Unicode digits that `str.isdigit()`
admits. -/
def decimalDigits (s : String) : Bool := !s.isEmpty && s.data.all Char.isDigit

/-- Decimal value of an all-digit string, the value `int(...)` returns on
such input. -/
def digitsToNat (s : String) : Nat :=
  s.data.foldl (fun a c => a * 10 + (c.toNat - 48)) 0

/-- Python `int(s)` on the shapes `parse_volume` can feed it: a non-empty
ASCII-decimal string converts to its value; anything else — in particular
an `isdigit`-passing string carrying a superscript digit — makes `int`
raise `ValueError`, modelled `none`.  (The wider forms `int` accepts,
signs and surrounding whitespace, cannot reach it through the guard.) -/
def pyInt (s : String) : Option Nat :=
  if decimalDigits s then some (digitsToNat s) else none

/-- The helper `parse_volume(volume)` of `fetch_data_for_interval`: `None`
and guard-failing values give the empty CSV field `''` (modelled
`Option.none`), guard-passing values are de-comma-ed and converted by
`int`.  The guard is unsound: a value such as `"²"` or `"15²"` passes
`isdigit()` yet `int` raises `ValueError` on it, so the `error` branch is
reachable and the exception escapes `fetch_data_for_interval`. -/
def parse_volume (volume : Option String) : Except String (Option Nat) :=
  match volume with
  | none => .ok none
  | some v =>
    if pyIsDigit (stripCommas v) then
      match pyInt (stripCommas v) with
      | some n => .ok (some n)
      | none => .error "invalid literal for int"
    else .ok none

/-- The value `parse_volume` returns whenever it does not raise. -/
def parseVolumeValue (volume : Option String) : Option Nat :=
  match volume with
  | none => none
  | some v =>
    if pyIsDigit (stripCommas v) then some (digitsToNat (stripCommas v))
    else none

/-- Whether a collected raw value parses cleanly: it is `None`, or (being
Latin-1, where the `isdigit` model is exact) it either fails the `isdigit`
guard — giving the empty field — or is an ASCII-decimal string that `int`
converts.  Exactly the values outside this predicate make `parse_volume`
raise. -/
def volumeParses (v : Option String) : Bool :=
  match v with
  | none => true
  | some s =>
    latin1Str s &&
      (!pyIsDigit (stripCommas s) || decimalDigits (stripCommas s))

/-- Whether all four collected values of a scan parse cleanly, i.e. the
extraction step completes without raising. -/
def readingParses (st : ScanState) : Bool :=
  volumeParses st.wb && volumeParses st.eb && volumeParses st.nb &&
    volumeParses st.sb

/-- The record extracted from one response: the four directional volumes,
each `none` when unreported or unparsable. -/
structure VolumeReading where
  wb : Option Nat
  eb : Option Nat
  nb : Option Nat
  sb : Option Nat
deriving DecidableEq

/-- The full extraction step of `fetch_data_for_interval`: scan every
bordered table's cell pairs, then normalize the four collected raw values
with `parse_volume`.  An `error` is a raised exception. -/
def extractVolumes (tables : List (List String)) :
    Except String VolumeReading := do
  let st := extractScan tables
  let wbv ← parse_volume st.wb
  let ebv ← parse_volume st.eb
  let nbv ← parse_volume st.nb
  let sbv ← parse_volume st.sb
  return ⟨wbv, ebv, nbv, sbv⟩

/-- Total description of the reading `extractVolumes` produces. -/
def extractValue (tables : List (List String)) : VolumeReading :=
  let st := extractScan tables
  ⟨parseVolumeValue st.wb, parseVolumeValue st.eb, parseVolumeValue st.nb,
    parseVolumeValue st.sb⟩

/-- The four directions a table row can report. -/
inductive Direction
  | west
  | east
  | north
  | south
deriving DecidableEq, Fintype

/-- The fixed phrase the `if/elif` chain tests for each direction. -/
def dirPhrase : Direction → String
  | .west => "westbound total volume"
  | .east => "eastbound total volume"
  | .north => "northbound total volume"
  | .south => "southbound total volume"

/-- Whether a raw cell label matches a direction: the phrase occurs in the
lower-cased label. -/
def dirMatches (d : Direction) (metric : String) : Bool :=
  pyIn (dirPhrase d) (pyLower metric)

/-- The accumulator a direction is stored in. -/
def getDir (st : ScanState) : Direction → Option String
  | .west => st.wb
  | .east => st.eb
  | .north => st.nb
  | .south => st.sb

/-- The label/value pairs the stride-2 walk forms from a cell list, a
trailing odd cell dropped. -/
def cellPairs : List String → List (String × String)
  | a :: b :: rest => (a, b) :: cellPairs rest
  | _ => []

/-- Folding the `if/elif` chain over an explicit pair list. -/
def scanPairs (st : ScanState) (ps : List (String × String)) : ScanState :=
  ps.foldl (fun s p => scanPair s p.1 p.2) st

/-- One unit of work: a signal id together with one tiled interval's
formatted bounds (the `(signal_id, start_dt_str, end_dt_str)` tuples the
coordinator builds). -/
structure HarvestTask where
  signal_id : String
  interval_start : String
  interval_end : String
deriving DecidableEq

/-- One CSV data row, in the fixed `fieldnames` column order; a missing
volume serializes as an empty field (`none`). -/
structure DataRow where
  signalID : String
  startDate : String
  endDate : String
  wbVol : Option Nat
  ebVol : Option Nat
  nbVol : Option Nat
  sbVol : Option Nat
deriving DecidableEq

/-- The `data_row` dict built for a task from its extracted reading. -/
def mkRow (t : HarvestTask) (r : VolumeReading) : DataRow :=
  ⟨t.signal_id, t.interval_start, t.interval_end, r.wb, r.eb, r.nb, r.sb⟩

/-- The environment one task's network activity observes: the outcome of
each successive POST attempt, and the tables of the response body once a
response is returned (`error` when `response.text()` or the markup parse
raises instead of yielding a body). -/
structure TaskEnv where
  oracle : Nat → AttemptResult
  body : Except String (List (List String))

/-- The retry budget `fetch_data_for_interval` passes: `max_retries=4`. -/
def fetchMaxRetries : Nat := 4

/-- The back-off base `fetch_data_for_interval` passes:
`backoff_factor=1.5`. -/
def fetchBackoff : ℚ := 3 / 2

/-- The task body `fetch_data_for_interval` after the semaphore/jitter preamble, as a
function of the task's environment: call `robust_post`; on `None` log and
return with no row; otherwise read the body (whose failure raises out of
the task), extract, and append exactly one `data_row` under the lock.
`ok (some row)` is the row appended, `ok none` a dropped task with no
row, `error` an exception escaping the task. -/
def fetch_data_for_interval (env : TaskEnv) (t : HarvestTask) :
    Except String (Option DataRow) :=
  match (robust_post env.oracle fetchMaxRetries fetchBackoff).result with
  | .success _ =>
    match env.body with
    | .error e => .error e
    | .ok tables =>
      match extractVolumes tables with
      | .ok r => .ok (some (mkRow t r))
      | .error e => .error e
  | .terminalFailure _ _ => .ok none
  | .retriesExhausted => .ok none

/-- One line of the output CSV file. -/
inductive SinkLine
  | header
  | row (r : DataRow)
deriving DecidableEq

/-- The row a task contributes to the sink: none when the task was dropped
(`robust_post` returned `None`) or when its exception was captured by
`asyncio.gather(..., return_exceptions=True)` and merely logged. -/
def taskSinkRow (env : HarvestTask → TaskEnv) (t : HarvestTask) :
    Option DataRow :=
  match fetch_data_for_interval (env t) t with
  | .ok r => r
  | .error _ => none

/-- The rows one dispatched batch appends: every task of the batch settles
independently and contributes its row if it produced one. -/
def batchRows (env : HarvestTask → TaskEnv) (batch : List HarvestTask) :
    List DataRow :=
  batch.filterMap (taskSinkRow env)

/-- The batching helper `more_itertools.chunked(l, n)` via structural fuel (`l.length`
iterations always suffice since every chunk consumes at least one
element; the source only instantiates `n` with 20 or 50). -/
def chunkedAux (n : Nat) : Nat → List HarvestTask → List (List HarvestTask)
  | _, [] => []
  | 0, _ :: _ => []
  | fuel + 1, x :: xs => (x :: xs.take (n - 1)) :: chunkedAux n fuel (xs.drop (n - 1))

/-- Splits the task list into consecutive batches of `n` (last one
shorter). -/
def chunked (n : Nat) (l : List HarvestTask) : List (List HarvestTask) :=
  chunkedAux n l.length l

/-- The batch size of `fetch_approach_volume_data` in
`Traffic_Data/fetch_volume.py`. -/
def batchSize : Nat := 20

/-- The `for task_batch in chunked(tasks, batch_size)` loop: each batch's
rows are appended to the sink in turn (exceptions inside a batch are
logged, the loop continues with an inter-batch sleep). -/
def runBatches (env : HarvestTask → TaskEnv) (tasks : List HarvestTask)
    (sink : List SinkLine) : List SinkLine :=
  (chunked batchSize tasks).foldl
    (fun sk batch => sk ++ (batchRows env batch).map SinkLine.row) sink

/-- The task cross product the coordinator prepares: every signal id paired
with every tiled interval, signals outermost. -/
def buildTasks (signal_ids : List String)
    (intervals : List (String × String)) : List HarvestTask :=
  signal_ids.flatMap fun sid =>
    intervals.map fun iv => ⟨sid, iv.1, iv.2⟩

/-- Outcome of the `session.get(url_main)` liveness probe: a response
status, or an exception from the `except` arm. -/
inductive ProbeResult
  | status (s : Nat)
  | raised
deriving DecidableEq

/-- The dispatch phase of `fetch_approach_volume_data`
(`Traffic_Data/fetch_volume.py`), after the signal-id file and the time
bounds have been read successfully: write the header row, probe the main
URL (a non-200 status or an exception returns at once, before any task is
dispatched), then dispatch every batch.  The value is the sink's final
line list. -/
def fetch_approach_volume_data (probe : ProbeResult)
    (env : HarvestTask → TaskEnv) (signal_ids : List String)
    (intervals : List (String × String)) : List SinkLine :=
  let tasks := buildTasks signal_ids intervals
  let sink : List SinkLine := [.header]
  match probe with
  | .status s => if s = 200 then runBatches env tasks sink else sink
  | .raised => sink

/-- Per-task body of the server-embedded coordinator copy
(`traffic_scripts_server/fetch_approach_volume_one.py`): a single POST
with no retry loop, the whole body wrapped in `try/except` so any
exception is logged and swallowed inside the task; only a 200 response
with a readable body yields a row. -/
def server_fetch_data_for_interval (env : TaskEnv) (t : HarvestTask) :
    Option DataRow :=
  match env.oracle 1 with
  | .resp 200 =>
    match env.body with
    | .error _ => none
    | .ok tables =>
      match extractVolumes tables with
      | .ok r => some (mkRow t r)
      | .error _ => none
  | _ => none

/-- The dispatch phase of the server-embedded coordinator copy.  Its
parameter `rootProbe` is the outcome a GET to the service root would
observe: the copy never issues that GET (it has no liveness probe), so the
parameter is unused and dispatch proceeds regardless.  Batch size is 50
there. -/
def fetch_approach_volume_data_server (rootProbe : ProbeResult)
    (env : HarvestTask → TaskEnv) (signal_ids : List String)
    (intervals : List (String × String)) : List SinkLine :=
  let tasks := buildTasks signal_ids intervals
  (chunkedAux 50 tasks.length tasks).foldl
    (fun sk batch =>
      sk ++ (batch.filterMap (fun t => server_fetch_data_for_interval (env t) t)).map
        SinkLine.row)
    [.header]

/-- A transport in which every attempt observes status 503. -/
def oracle503 : Nat → AttemptResult := fun _ => .resp 503

/-- A transport whose first attempt is rate-limited and whose second
receives a 404. -/
def oracleThen404 : Nat → AttemptResult :=
  fun k => if k = 1 then .resp 503 else .resp 404

/-- A transport that succeeds immediately. -/
def oracle200 : Nat → AttemptResult := fun _ => .resp 200

/-- A sample task. -/
def sampleTask : HarvestTask :=
  ⟨"7115", "01/01/2024 12:00:00 AM", "01/01/2024 12:15:00 AM"⟩

/-- A second sample task. -/
def sampleTask2 : HarvestTask :=
  ⟨"7116", "01/01/2024 12:00:00 AM", "01/01/2024 12:15:00 AM"⟩

/-- A third sample task. -/
def sampleTask3 : HarvestTask :=
  ⟨"7117", "01/01/2024 12:00:00 AM", "01/01/2024 12:15:00 AM"⟩

/-- An environment whose transport succeeds at once with a body holding no
bordered metric table. -/
def envEmptyOk : TaskEnv := ⟨oracle200, .ok []⟩

/-- An environment whose transport succeeds but whose body read raises. -/
def envBodyRaises : TaskEnv := ⟨oracle200, .error "connection reset"⟩

/-- An environment whose transport exhausts its retries. -/
def envExhausted : TaskEnv := ⟨oracle503, .ok []⟩

/-- An environment whose transport succeeds at once with a body whose
westbound value is the superscript-two character — the input on which the
`isdigit()` guard passes but `int()` raises. -/
def envDigitTrap : TaskEnv := ⟨oracle200, .ok [["Westbound Total Volume", "²"]]⟩

/-- A per-task environment in which the middle of three sibling tasks
raises and the other two succeed with empty readings. -/
def envMiddleRaises : HarvestTask → TaskEnv :=
  fun t => if t = sampleTask2 then envBodyRaises else envEmptyOk

/-- The row a task with an all-empty reading contributes. -/
def emptyRowOf (t : HarvestTask) : DataRow :=
  ⟨t.signal_id, t.interval_start, t.interval_end, none, none, none, none⟩

/-- A label matching two direction phrases at once: the pathological shape
on which the `elif` chain's priority decides. -/
def ambiguousLabel : String := "Westbound Total Volume Eastbound Total Volume"

/-- A body whose first label/value pair matches both the westbound and the
eastbound phrase and whose second pair matches only the eastbound phrase. -/
def dupEastBody : List (List String) :=
  [[ambiguousLabel, "5", "Eastbound Total Volume", "7"]]

/-- Two tables both reporting a westbound total volume. -/
def dupWestBody : List (List String) :=
  [["Westbound Total Volume", "111"], ["Westbound Total Volume", "222"]]

/-- A body whose only table reports no directional metric. -/
def noDataBody : List (List String) := [["No Data Available", "0"]]

/-- A per-task environment in which every task succeeds at once with an
empty body. -/
def envServerOk : HarvestTask → TaskEnv := fun _ => envEmptyOk

/-! ## Theorems -/

theorem tileAux_stop (e step : Int) (fuel : Nat) (cur : Int) (h : ¬cur < e) :
    tileAux e step fuel cur = [] := by
  cases fuel with
  | zero => rfl
  | succ n => simp [tileAux, h]

theorem tileAux_chain (e step : Int) :
    ∀ fuel cur, chainFrom cur (tileAux e step fuel cur) = true := by
  intro fuel
  induction fuel with
  | zero => intro cur; rfl
  | succ n ih =>
    intro cur
    by_cases h : cur < e
    · simp only [tileAux, if_pos h, chainFrom, beq_self_eq_true, Bool.true_and]
      exact ih _
    · simp [tileAux, h, chainFrom]

theorem tileAux_ends_le (e step : Int) :
    ∀ fuel cur, ∀ p ∈ tileAux e step fuel cur, p.2 ≤ e := by
  intro fuel
  induction fuel with
  | zero => intro cur p hp; exact absurd hp (List.not_mem_nil p)
  | succ n ih =>
    intro cur p hp
    by_cases h : cur < e
    · simp only [tileAux, if_pos h] at hp
      rcases List.mem_cons.mp hp with hp | hp
      · subst hp; simp only; split <;> omega
      · exact ih _ p hp
    · rw [tileAux_stop e step _ cur h] at hp
      exact absurd hp (List.not_mem_nil p)

theorem tileAux_last_end (e step : Int) (hstep : 0 < step) :
    ∀ fuel cur, cur < e → (e - cur).toNat ≤ fuel →
      ((tileAux e step fuel cur).getLast?).map Prod.snd = some e := by
  intro fuel
  induction fuel with
  | zero => intro cur hlt hfuel; omega
  | succ n ih =>
    intro cur hlt hfuel
    simp only [tileAux, if_pos hlt]
    by_cases hend : cur + step > e
    · rw [show (if cur + step > e then e else cur + step) = e from if_pos hend,
        tileAux_stop e step n e (by omega)]
      rfl
    · rw [show (if cur + step > e then e else cur + step) = cur + step from
        if_neg hend]
      by_cases hhit : cur + step = e
      · rw [hhit, tileAux_stop e step n e (by omega)]
        rfl
      · have hlt' : cur + step < e := by omega
        have h2 := ih (cur + step) hlt' (by omega)
        rcases htail : tileAux e step n (cur + step) with _ | ⟨q, rest⟩
        · rw [htail] at h2; simp at h2
        · rw [htail] at h2
          rw [List.getLast?_cons_cons]
          exact h2

theorem natCeilDiv_eq (n k : Nat) (hk : 0 < k) (hn : 0 < n) :
    natCeilDiv n k = (n - 1) / k + 1 := by
  unfold natCeilDiv
  have h : n + k - 1 = (n - 1) + k := by omega
  rw [h, Nat.add_div_right _ hk]

theorem natCeilDiv_zero (k : Nat) : natCeilDiv 0 k = 0 := by
  unfold natCeilDiv
  cases k with
  | zero => rfl
  | succ m => exact Nat.div_eq_of_lt (by omega)

theorem tileAux_length (e step : Int) (hstep : 0 < step) :
    ∀ fuel cur, (e - cur).toNat ≤ fuel →
      (tileAux e step fuel cur).length = natCeilDiv (e - cur).toNat step.toNat := by
  intro fuel
  induction fuel with
  | zero =>
    intro cur hfuel
    have h0 : (e - cur).toNat = 0 := by omega
    rw [h0, natCeilDiv_zero]
    rfl
  | succ n ih =>
    intro cur hfuel
    by_cases h : cur < e
    · simp only [tileAux, if_pos h, List.length_cons]
      by_cases hend : cur + step > e
      · rw [show (if cur + step > e then e else cur + step) = e from if_pos hend,
          tileAux_stop e step n e (lt_irrefl e), List.length_nil,
          natCeilDiv_eq (e - cur).toNat step.toNat (by omega) (by omega)]
        have hz : ((e - cur).toNat - 1) / step.toNat = 0 :=
          Nat.div_eq_of_lt (by omega)
        omega
      · rw [show (if cur + step > e then e else cur + step) = cur + step from
          if_neg hend, ih (cur + step) (by omega)]
        by_cases hhit : cur + step = e
        · have h0 : (e - (cur + step)).toNat = 0 := by omega
          rw [h0, natCeilDiv_zero,
            natCeilDiv_eq (e - cur).toNat step.toNat (by omega) (by omega)]
          have hz : ((e - cur).toNat - 1) / step.toNat = 0 :=
            Nat.div_eq_of_lt (by omega)
          omega
        · rw [natCeilDiv_eq (e - (cur + step)).toNat step.toNat (by omega) (by omega),
            natCeilDiv_eq (e - cur).toNat step.toNat (by omega) (by omega)]
          have h4 : (e - cur).toNat - 1 =
              ((e - (cur + step)).toNat - 1) + step.toNat := by
            omega
          rw [h4, Nat.add_div_right _ (by omega)]
    · rw [tileAux_stop e step _ cur h]
      have h0 : (e - cur).toNat = 0 := by omega
      rw [h0, natCeilDiv_zero]
      rfl

theorem classifyAttempt_retry_iff (x : AttemptResult) :
    classifyAttempt x = .retry ↔ retryable x = true := by
  cases x with
  | resp s =>
    by_cases h : s = 200
    · subst h; simp [classifyAttempt, retryable, retryableStatus]
    · have hb : (s == 200) = false := by simpa using h
      simp only [classifyAttempt, retryable, hb, Bool.false_eq_true, if_false,
        decide_not, Bool.not_eq_true']
      cases hr : retryableStatus s
      all_goals simp [hr]
      all_goals exact h
  | timeout => simp [classifyAttempt, retryable]
  | otherError => simp [classifyAttempt, retryable]

theorem classifyAttempt_succeeded_iff (x : AttemptResult) :
    classifyAttempt x = .succeeded ↔ x = .resp 200 := by
  cases x with
  | resp s =>
    by_cases h : s = 200
    · subst h; simp [classifyAttempt]
    · have hb : (s == 200) = false := by simpa using h
      simp only [classifyAttempt, hb, Bool.false_eq_true, if_false]
      cases hr : retryableStatus s <;> simp [hr] <;> exact h
  | timeout => simp [classifyAttempt]
  | otherError => simp [classifyAttempt]

theorem classifyAttempt_terminal (s : Nat) (h200 : s ≠ 200)
    (hr : retryableStatus s = false) :
    classifyAttempt (.resp s) = .terminal s := by
  have hb : (s == 200) = false := by simpa using h200
  simp [classifyAttempt, hb, hr]

theorem robustPostAux_zero (oracle : Nat → AttemptResult) (b : ℚ) (a : Nat) :
    robustPostAux oracle b a 0 = ⟨.retriesExhausted, 0, []⟩ := rfl

theorem robustPostAux_succeeded (oracle : Nat → AttemptResult) (b : ℚ)
    (a r : Nat) (h : classifyAttempt (oracle a) = .succeeded) :
    robustPostAux oracle b a (r + 1) = ⟨.success a, 1, []⟩ := by
  simp [robustPostAux, h]

theorem robustPostAux_terminal (oracle : Nat → AttemptResult) (b : ℚ)
    (a r s : Nat) (h : classifyAttempt (oracle a) = .terminal s) :
    robustPostAux oracle b a (r + 1) = ⟨.terminalFailure a s, 1, []⟩ := by
  simp [robustPostAux, h]

theorem robustPostAux_retry_last (oracle : Nat → AttemptResult) (b : ℚ)
    (a : Nat) (h : classifyAttempt (oracle a) = .retry) :
    robustPostAux oracle b a 1 = ⟨.retriesExhausted, 1, []⟩ := by
  simp [robustPostAux, h]

theorem robustPostAux_retry_step (oracle : Nat → AttemptResult) (b : ℚ)
    (a r : Nat) (h : classifyAttempt (oracle a) = .retry) :
    robustPostAux oracle b a (r + 2) =
      ⟨(robustPostAux oracle b (a + 1) (r + 1)).result,
        (robustPostAux oracle b (a + 1) (r + 1)).attempts + 1,
        b ^ a :: (robustPostAux oracle b (a + 1) (r + 1)).sleeps⟩ := by
  simp [robustPostAux, h]

theorem robustPostAux_attempts_le (oracle : Nat → AttemptResult) (b : ℚ) :
    ∀ r a, (robustPostAux oracle b a r).attempts ≤ r := by
  intro r
  induction r with
  | zero => intro a; exact Nat.le_refl 0
  | succ n ih =>
    intro a
    cases hcl : classifyAttempt (oracle a) with
    | succeeded =>
      rw [robustPostAux_succeeded oracle b a n hcl]
      exact Nat.succ_le_succ (Nat.zero_le n)
    | terminal s =>
      rw [robustPostAux_terminal oracle b a n s hcl]
      exact Nat.succ_le_succ (Nat.zero_le n)
    | retry =>
      cases n with
      | zero =>
        rw [robustPostAux_retry_last oracle b a hcl]
      | succ m =>
        rw [robustPostAux_retry_step oracle b a m hcl]
        exact Nat.succ_le_succ (ih (a + 1))

theorem robustPostAux_attempts_pos (oracle : Nat → AttemptResult) (b : ℚ)
    (r a : Nat) (hr : 0 < r) : 1 ≤ (robustPostAux oracle b a r).attempts := by
  obtain ⟨n, rfl⟩ : ∃ n, r = n + 1 := ⟨r - 1, by omega⟩
  cases hcl : classifyAttempt (oracle a) with
  | succeeded =>
    rw [robustPostAux_succeeded oracle b a n hcl]
  | terminal s =>
    rw [robustPostAux_terminal oracle b a n s hcl]
  | retry =>
    cases n with
    | zero =>
      rw [robustPostAux_retry_last oracle b a hcl]
    | succ m =>
      rw [robustPostAux_retry_step oracle b a m hcl]
      exact Nat.succ_le_succ (Nat.zero_le _)

theorem robustPostAux_sleeps (oracle : Nat → AttemptResult) (b : ℚ) :
    ∀ r a, (robustPostAux oracle b a r).sleeps =
      (List.range ((robustPostAux oracle b a r).attempts - 1)).map
        (fun i => b ^ (a + i)) := by
  intro r
  induction r with
  | zero => intro a; rfl
  | succ n ih =>
    intro a
    cases hcl : classifyAttempt (oracle a) with
    | succeeded => rw [robustPostAux_succeeded oracle b a n hcl]; rfl
    | terminal s => rw [robustPostAux_terminal oracle b a n s hcl]; rfl
    | retry =>
      cases n with
      | zero => rw [robustPostAux_retry_last oracle b a hcl]; rfl
      | succ m =>
        rw [robustPostAux_retry_step oracle b a m hcl]
        have hpos := robustPostAux_attempts_pos oracle b (m + 1) (a + 1)
          (Nat.succ_pos m)
        obtain ⟨k, hk⟩ : ∃ k, (robustPostAux oracle b (a + 1) (m + 1)).attempts
            = k + 1 :=
          ⟨(robustPostAux oracle b (a + 1) (m + 1)).attempts - 1, by omega⟩
        show b ^ a :: (robustPostAux oracle b (a + 1) (m + 1)).sleeps =
          (List.range
            ((robustPostAux oracle b (a + 1) (m + 1)).attempts + 1 - 1)).map
            (fun i => b ^ (a + i))
        rw [ih (a + 1), hk]
        rw [show k + 1 + 1 - 1 = k + 1 from rfl, show k + 1 - 1 = k from rfl,
          List.range_succ_eq_map, List.map_cons, List.map_map]
        refine congrArg₂ _ (by rw [Nat.add_zero]) ?_
        refine List.map_congr_left ?_
        intro i _
        show b ^ (a + 1 + i) = b ^ (a + (i + 1))
        rw [show a + 1 + i = a + (i + 1) from by omega]

theorem robustPostAux_success_oracle (oracle : Nat → AttemptResult) (b : ℚ) :
    ∀ r a i, (robustPostAux oracle b a r).result = .success i →
      oracle i = .resp 200 := by
  intro r
  induction r with
  | zero => intro a i h; exact absurd h (by simp [robustPostAux_zero])
  | succ n ih =>
    intro a i h
    cases hcl : classifyAttempt (oracle a) with
    | succeeded =>
      rw [robustPostAux_succeeded oracle b a n hcl] at h
      cases h
      exact (classifyAttempt_succeeded_iff (oracle a)).mp hcl
    | terminal s =>
      rw [robustPostAux_terminal oracle b a n s hcl] at h
      cases h
    | retry =>
      cases n with
      | zero => rw [robustPostAux_retry_last oracle b a hcl] at h; cases h
      | succ m =>
        rw [robustPostAux_retry_step oracle b a m hcl] at h
        exact ih (a + 1) i h

theorem robustPostAux_all_retry (oracle : Nat → AttemptResult) (b : ℚ)
    (hall : ∀ k, classifyAttempt (oracle k) = .retry) :
    ∀ r a, (robustPostAux oracle b a r).result = .retriesExhausted ∧
      (robustPostAux oracle b a r).attempts = r := by
  intro r
  induction r with
  | zero => intro a; exact ⟨rfl, rfl⟩
  | succ n ih =>
    intro a
    cases n with
    | zero => rw [robustPostAux_retry_last oracle b a (hall a)]; exact ⟨rfl, rfl⟩
    | succ m =>
      rw [robustPostAux_retry_step oracle b a m (hall a)]
      obtain ⟨h1, h2⟩ := ih (a + 1)
      refine ⟨h1, ?_⟩
      show (robustPostAux oracle b (a + 1) (m + 1)).attempts + 1 = m + 1 + 1
      omega

theorem robust_post_reach (oracle : Nat → AttemptResult) (b : ℚ) (m : Nat) :
    ∀ a, 1 ≤ a → a ≤ m →
      (∀ k, 1 ≤ k → k < a → classifyAttempt (oracle k) = .retry) →
      (robust_post oracle m b).result =
        (robustPostAux oracle b a (m + 1 - a)).result ∧
      (robust_post oracle m b).attempts =
        (a - 1) + (robustPostAux oracle b a (m + 1 - a)).attempts := by
  intro a
  induction a with
  | zero => intro h1; omega
  | succ n ih =>
    intro h1 h2 hk
    by_cases hn : n = 0
    · subst hn
      rw [show m + 1 - 1 = m from rfl]
      refine ⟨rfl, ?_⟩
      show (robustPostAux oracle b 1 m).attempts =
        0 + 1 - 1 + (robustPostAux oracle b 1 m).attempts
      omega
    · have hn1 : 1 ≤ n := by omega
      have hn2 : n ≤ m := by omega
      obtain ⟨hres, hatt⟩ := ih hn1 hn2 (fun k hk1 hk2 => hk k hk1 (by omega))
      have hretry : classifyAttempt (oracle n) = .retry := hk n hn1 (by omega)
      obtain ⟨r, hr⟩ : ∃ r, m + 1 - n = r + 2 := ⟨m - n - 1, by omega⟩
      rw [hr, robustPostAux_retry_step oracle b n r hretry] at hres hatt
      have hatt' : (robust_post oracle m b).attempts =
          (n - 1) + ((robustPostAux oracle b (n + 1) (r + 1)).attempts + 1) :=
        hatt
      have hr' : m + 1 - (n + 1) = r + 1 := by omega
      rw [hr']
      exact ⟨hres, by omega⟩

theorem tileAux_head (e step : Int) (fuel : Nat) (cur : Int)
    (hlt : cur < e) (hfuel : 0 < fuel) :
    ((tileAux e step fuel cur).head?).map Prod.fst = some cur := by
  obtain ⟨n, rfl⟩ : ∃ n, fuel = n + 1 := ⟨fuel - 1, by omega⟩
  simp [tileAux, hlt]

/-- C1: for timestamps with `start < end` and `interval_minutes > 0`,
`create_time_intervals` returns an ordered sequence of
`(interval_start, interval_end)` pairs whose first start is `start`, in
which each pair's start is the previous pair's end (`chainFrom`), no end
exceeds `end`, the last end is `end`, and whose length is
`⌈(end-start)/interval_minutes⌉` (stated over the common time unit of
seconds, so the divisor is `60 * interval_minutes`); and every input with
`start ≥ end` yields the empty sequence. -/
theorem c1_interval_tiling (s e ivl : Int) :
    (e ≤ s → create_time_intervals s e ivl = []) ∧
    (0 < ivl →
      chainFrom s (create_time_intervals s e ivl) = true ∧
      (∀ p ∈ create_time_intervals s e ivl, p.2 ≤ e) ∧
      (s < e →
        ((create_time_intervals s e ivl).head?).map Prod.fst = some s ∧
        ((create_time_intervals s e ivl).getLast?).map Prod.snd = some e) ∧
      (create_time_intervals s e ivl).length =
        natCeilDiv (e - s).toNat (60 * ivl).toNat) := by
  constructor
  · intro hle
    exact tileAux_stop e (60 * ivl) _ s (by omega)
  · intro hivl
    have hstep : 0 < 60 * ivl := by omega
    refine ⟨tileAux_chain e (60 * ivl) _ s,
      tileAux_ends_le e (60 * ivl) _ s, ?_, ?_⟩
    · intro hlt
      exact ⟨tileAux_head e (60 * ivl) _ s hlt (by omega),
        tileAux_last_end e (60 * ivl) hstep _ s hlt (Nat.le_refl _)⟩
    · exact tileAux_length e (60 * ivl) hstep _ s (Nat.le_refl _)

/-- Witness for C1: a 35-minute range tiled at 15 minutes gives a chain of
3 intervals ending at the range end, and a reversed range gives `[]`. -/
theorem c1_interval_tiling_witness :
    (0 : Int) < 2100 ∧ (0 : Int) < 15 ∧
    chainFrom 0 (create_time_intervals 0 2100 15) = true ∧
    ((create_time_intervals 0 2100 15).getLast?).map Prod.snd = some 2100 ∧
    (create_time_intervals 0 2100 15).length = 3 ∧
    create_time_intervals 2100 0 15 = [] := by
  refine ⟨by decide, by decide, ?_, ?_, ?_, ?_⟩
  · exact ((c1_interval_tiling 0 2100 15).2 (by decide)).1
  · exact (((c1_interval_tiling 0 2100 15).2 (by decide)).2.2.1 (by decide)).2
  · exact (((c1_interval_tiling 0 2100 15).2 (by decide)).2.2.2).trans (by decide)
  · exact (c1_interval_tiling 2100 0 15).1 (by decide)

/-- C2: within `robust_post`, an attempt `a` (reached because all earlier
attempts were retried) is retried exactly when its status lies in
`{429, 500, 502, 503, 504}` or it raised a timeout or any other exception
(`retryable`): if attempts remain a further attempt is made, and on the
last attempt the call ends in `RetriesExhausted`; a 200 response returns
success at once; any other status is a terminal failure returned
immediately, with no further attempts. -/
theorem c2_retry_policy (oracle : Nat → AttemptResult) (m : Nat) (b : ℚ)
    (a : Nat) (ha1 : 1 ≤ a) (ha2 : a ≤ m)
    (hbefore : ∀ k, 1 ≤ k → k < a → retryable (oracle k) = true) :
    a ≤ (robust_post oracle m b).attempts ∧
    (retryable (oracle a) = true → a < m →
      a + 1 ≤ (robust_post oracle m b).attempts) ∧
    (retryable (oracle a) = true → a = m →
      (robust_post oracle m b).result = .retriesExhausted ∧
      (robust_post oracle m b).attempts = m) ∧
    (oracle a = .resp 200 →
      (robust_post oracle m b).result = .success a ∧
      (robust_post oracle m b).attempts = a) ∧
    (∀ s, oracle a = .resp s → s ≠ 200 → retryableStatus s = false →
      (robust_post oracle m b).result = .terminalFailure a s ∧
      (robust_post oracle m b).attempts = a) := by
  have hcl : ∀ k, 1 ≤ k → k < a → classifyAttempt (oracle k) = .retry :=
    fun k h1 h2 => (classifyAttempt_retry_iff _).mpr (hbefore k h1 h2)
  obtain ⟨hres, hatt⟩ := robust_post_reach oracle b m a ha1 ha2 hcl
  obtain ⟨r, hr⟩ : ∃ r, m + 1 - a = r + 1 := ⟨m - a, by omega⟩
  rw [hr] at hres hatt
  have hpos1 := robustPostAux_attempts_pos oracle b (r + 1) a (Nat.succ_pos r)
  refine ⟨by omega, ?_, ?_, ?_, ?_⟩
  · intro hretb hlt
    have hclr : classifyAttempt (oracle a) = .retry :=
      (classifyAttempt_retry_iff _).mpr hretb
    obtain ⟨r2, hr2⟩ : ∃ r2, r = r2 + 1 := ⟨r - 1, by omega⟩
    have hatt2 := hatt
    rw [hr2, robustPostAux_retry_step oracle b a r2 hclr] at hatt2
    have hpos2 := robustPostAux_attempts_pos oracle b (r2 + 1) (a + 1)
      (Nat.succ_pos r2)
    have hatt2' : (robust_post oracle m b).attempts =
        (a - 1) + ((robustPostAux oracle b (a + 1) (r2 + 1)).attempts + 1) :=
      hatt2
    omega
  · intro hretb heq
    have hclr : classifyAttempt (oracle a) = .retry :=
      (classifyAttempt_retry_iff _).mpr hretb
    have hr0 : r = 0 := by omega
    have hres3 := hres
    have hatt3 := hatt
    rw [hr0, robustPostAux_retry_last oracle b a hclr] at hres3 hatt3
    have hatt3' : (robust_post oracle m b).attempts = (a - 1) + 1 := hatt3
    exact ⟨hres3, by omega⟩
  · intro h200
    have hsucc : classifyAttempt (oracle a) = .succeeded :=
      (classifyAttempt_succeeded_iff _).mpr h200
    have hres4 := hres
    have hatt4 := hatt
    rw [robustPostAux_succeeded oracle b a r hsucc] at hres4 hatt4
    have hatt4' : (robust_post oracle m b).attempts = (a - 1) + 1 := hatt4
    exact ⟨hres4, by omega⟩
  · intro s hs h200 hrs
    have hterm : classifyAttempt (oracle a) = .terminal s := by
      rw [hs]; exact classifyAttempt_terminal s h200 hrs
    have hres5 := hres
    have hatt5 := hatt
    rw [robustPostAux_terminal oracle b a r s hterm] at hres5 hatt5
    have hatt5' : (robust_post oracle m b).attempts = (a - 1) + 1 := hatt5
    exact ⟨hres5, by omega⟩

/-- Witness for C2: with a transport whose first attempt is rate-limited
(503, retried) and whose second attempt receives a 404, the call ends as a
terminal failure on attempt 2 having made exactly 2 of its 4 permitted
attempts. -/
theorem c2_retry_policy_witness :
    (1 : Nat) ≤ 2 ∧ (2 : Nat) ≤ 4 ∧ retryable (oracleThen404 1) = true ∧
    (robust_post oracleThen404 4 fetchBackoff).result =
      .terminalFailure 2 404 ∧
    (robust_post oracleThen404 4 fetchBackoff).attempts = 2 := by
  have h := c2_retry_policy oracleThen404 4 fetchBackoff 2 (by decide) (by decide)
    (by
      intro k h1 h2
      have hk : k = 1 := by omega
      subst hk
      decide)
  exact ⟨by decide, by decide, by decide,
    (h.2.2.2.2 404 rfl (by decide) (by decide)).1,
    (h.2.2.2.2 404 rfl (by decide) (by decide)).2⟩

/-- C3: `robust_post` makes at most `max_retries` attempts; its sleeps are
exactly one per non-final attempt — the delay before attempt `n + 1`
(the `n`-th sleep, zero-indexed list position `n - 1`) is
`backoff_factor ^ n`, and none follows the final attempt (the list has
`attempts - 1` entries); and when every attempt observes status 503 the
call makes exactly `max_retries` attempts and returns `None`
(`retriesExhausted`), which `fetch_data_for_interval` treats as no data
for the task (`ok none`: no row, no raised error) rather than aborting. -/
theorem c3_backoff_and_exhaustion (oracle : Nat → AttemptResult) (m : Nat)
    (b : ℚ) (hm : 1 ≤ m) :
    (robust_post oracle m b).attempts ≤ m ∧
    (robust_post oracle m b).sleeps =
      (List.range ((robust_post oracle m b).attempts - 1)).map
        (fun n => b ^ (n + 1)) ∧
    ((∀ k, oracle k = .resp 503) →
      (robust_post oracle m b).result = .retriesExhausted ∧
      (robust_post oracle m b).attempts = m ∧
      ∀ (body : Except String (List (List String))) (t : HarvestTask),
        fetch_data_for_interval ⟨oracle, body⟩ t = .ok none) := by
  refine ⟨robustPostAux_attempts_le oracle b m 1, ?_, ?_⟩
  · refine (robustPostAux_sleeps oracle b m 1).trans (List.map_congr_left ?_)
    intro i _
    show b ^ (1 + i) = b ^ (i + 1)
    rw [Nat.add_comm 1 i]
  · intro h503
    have hall : ∀ k, classifyAttempt (oracle k) = .retry := by
      intro k
      rw [h503 k]
      rfl
    obtain ⟨h1, h2⟩ := robustPostAux_all_retry oracle b hall m 1
    refine ⟨h1, h2, ?_⟩
    intro body t
    have hres : (robust_post oracle fetchMaxRetries fetchBackoff).result =
        .retriesExhausted :=
      (robustPostAux_all_retry oracle fetchBackoff hall fetchMaxRetries 1).1
    simp [fetch_data_for_interval, hres]

/-- Witness for C3: an always-503 transport with a budget of 3 attempts
exhausts exactly 3 attempts, and the caller records no row for the task. -/
theorem c3_backoff_and_exhaustion_witness :
    (1 : Nat) ≤ 3 ∧
    (robust_post oracle503 3 fetchBackoff).attempts ≤ 3 ∧
    (robust_post oracle503 3 fetchBackoff).result = .retriesExhausted ∧
    (robust_post oracle503 3 fetchBackoff).attempts = 3 ∧
    fetch_data_for_interval ⟨oracle503, .ok []⟩ sampleTask = .ok none := by
  have h := c3_backoff_and_exhaustion oracle503 3 fetchBackoff (by decide)
  have h503 : ∀ k, oracle503 k = .resp 503 := fun _ => rfl
  exact ⟨by decide, h.1, (h.2.2 h503).1, (h.2.2 h503).2.1,
    (h.2.2 h503).2.2 (.ok []) sampleTask⟩

theorem parse_volume_ok (v : Option String) (hv : volumeParses v = true) :
    parse_volume v = .ok (parseVolumeValue v) := by
  cases v with
  | none => rfl
  | some s =>
    simp only [volumeParses, Bool.and_eq_true] at hv
    cases hd : pyIsDigit (stripCommas s) with
    | false => simp [parse_volume, parseVolumeValue, hd]
    | true =>
      obtain ⟨-, hcase⟩ := hv
      rw [hd] at hcase
      simp only [Bool.not_true, Bool.false_or] at hcase
      simp [parse_volume, parseVolumeValue, pyInt, hd, hcase]

theorem parse_volume_raises (s : String)
    (hdig : pyIsDigit (stripCommas s) = true)
    (hdec : decimalDigits (stripCommas s) = false) :
    parse_volume (some s) = .error "invalid literal for int" := by
  simp [parse_volume, pyInt, hdig, hdec]

theorem extractVolumes_ok (tables : List (List String))
    (h : readingParses (extractScan tables) = true) :
    extractVolumes tables = .ok (extractValue tables) := by
  simp only [readingParses, Bool.and_eq_true] at h
  obtain ⟨⟨⟨h1, h2⟩, h3⟩, h4⟩ := h
  show (do
      let wbv ← parse_volume (extractScan tables).wb
      let ebv ← parse_volume (extractScan tables).eb
      let nbv ← parse_volume (extractScan tables).nb
      let sbv ← parse_volume (extractScan tables).sb
      pure (⟨wbv, ebv, nbv, sbv⟩ : VolumeReading)) =
    Except.ok (extractValue tables)
  rw [parse_volume_ok _ h1, parse_volume_ok _ h2, parse_volume_ok _ h3,
    parse_volume_ok _ h4]
  rfl

theorem scanCells_eq_scanPairs :
    ∀ (cells : List String) (st : ScanState),
      scanCells st cells = scanPairs st (cellPairs cells)
  | [], _ => rfl
  | [_], _ => rfl
  | a :: b :: rest, st => by
    show scanCells (scanPair st a b) rest = scanPairs st ((a, b) :: cellPairs rest)
    rw [scanCells_eq_scanPairs rest (scanPair st a b)]
    rfl

theorem foldl_scanCells_eq (tables : List (List String)) :
    ∀ st : ScanState,
      tables.foldl scanCells st = scanPairs st (tables.flatMap cellPairs) := by
  induction tables with
  | nil => intro st; rfl
  | cons t ts ih =>
    intro st
    show ts.foldl scanCells (scanCells st t) =
      scanPairs st ((t :: ts).flatMap cellPairs)
    rw [ih (scanCells st t), scanCells_eq_scanPairs t st, List.flatMap_cons]
    unfold scanPairs
    rw [List.foldl_append]

theorem extractScan_eq (tables : List (List String)) :
    extractScan tables = scanPairs emptyScan (tables.flatMap cellPairs) :=
  foldl_scanCells_eq tables emptyScan

theorem getDir_scanPair_mono (st : ScanState) (metric value : String)
    (d : Direction) (v : String) (h : getDir st d = some v) :
    getDir (scanPair st metric value) d = some v := by
  cases d <;>
    simp only [getDir] at h ⊢ <;>
    simp only [scanPair] <;>
    split_ifs <;>
    simp_all

theorem getDir_scanPair_of_not_match (st : ScanState) (metric value : String)
    (d : Direction) (h : dirMatches d metric = false) :
    getDir (scanPair st metric value) d = getDir st d := by
  simp only [dirMatches, dirPhrase] at h
  cases d <;>
    simp only [getDir] <;>
    simp only [scanPair] <;>
    split_ifs <;>
    simp_all

theorem getDir_scanPairs_mono (d : Direction) :
    ∀ (ps : List (String × String)) (st : ScanState) (v : String),
      getDir st d = some v → getDir (scanPairs st ps) d = some v := by
  intro ps
  induction ps with
  | nil => intro st v h; exact h
  | cons p ps ih =>
    intro st v h
    show getDir (scanPairs (scanPair st p.1 p.2) ps) d = some v
    exact ih _ v (getDir_scanPair_mono st p.1 p.2 d v h)

theorem getDir_scanPairs_no_match (d : Direction) :
    ∀ (ps : List (String × String)) (st : ScanState),
      (∀ p ∈ ps, dirMatches d p.1 = false) →
      getDir (scanPairs st ps) d = getDir st d := by
  intro ps
  induction ps with
  | nil => intro st _; rfl
  | cons p ps ih =>
    intro st h
    show getDir (scanPairs (scanPair st p.1 p.2) ps) d = getDir st d
    rw [ih _ (fun q hq => h q (List.mem_cons_of_mem p hq)),
      getDir_scanPair_of_not_match st p.1 p.2 d (h p (List.mem_cons_self p ps))]

theorem getDir_scanPair_assign (st : ScanState) (metric value : String)
    (d : Direction) (hm : dirMatches d metric = true)
    (hother : ∀ d', d' ≠ d → dirMatches d' metric = false)
    (hd : getDir st d = none) :
    getDir (scanPair st metric value) d = some value := by
  cases d with
  | west =>
    simp only [getDir] at hd ⊢
    have h1 : pyIn "westbound total volume" (pyLower metric) = true := hm
    simp [scanPair, h1, hd]
  | east =>
    simp only [getDir] at hd ⊢
    have h0 : pyIn "westbound total volume" (pyLower metric) = false :=
      hother .west (by decide)
    have h1 : pyIn "eastbound total volume" (pyLower metric) = true := hm
    simp [scanPair, h0, h1, hd]
  | north =>
    simp only [getDir] at hd ⊢
    have h0 : pyIn "westbound total volume" (pyLower metric) = false :=
      hother .west (by decide)
    have h0e : pyIn "eastbound total volume" (pyLower metric) = false :=
      hother .east (by decide)
    have h1 : pyIn "northbound total volume" (pyLower metric) = true := hm
    simp [scanPair, h0, h0e, h1, hd]
  | south =>
    simp only [getDir] at hd ⊢
    have h0 : pyIn "westbound total volume" (pyLower metric) = false :=
      hother .west (by decide)
    have h0e : pyIn "eastbound total volume" (pyLower metric) = false :=
      hother .east (by decide)
    have h0n : pyIn "northbound total volume" (pyLower metric) = false :=
      hother .north (by decide)
    have h1 : pyIn "southbound total volume" (pyLower metric) = true := hm
    simp [scanPair, h0, h0e, h0n, h1, hd]

theorem getDir_scanPairs_first (d : Direction) :
    ∀ (ps : List (String × String)) (st : ScanState),
      (∀ p ∈ ps, ∀ d₁ d₂, dirMatches d₁ p.1 = true →
        dirMatches d₂ p.1 = true → d₁ = d₂) →
      getDir st d = none →
      getDir (scanPairs st ps) d =
        (ps.find? (fun p => dirMatches d p.1)).map Prod.snd := by
  intro ps
  induction ps with
  | nil => intro st _ hd; exact hd
  | cons p ps ih =>
    intro st hu hd
    by_cases hm : dirMatches d p.1 = true
    · have hother : ∀ d', d' ≠ d → dirMatches d' p.1 = false := by
        intro d' hne
        cases hw : dirMatches d' p.1
        · rfl
        · exact absurd (hu p (List.mem_cons_self p ps) d' d hw hm) hne
      rw [@List.find?_cons_of_pos _ (fun q => dirMatches d q.1) p ps hm]
      show getDir (scanPairs (scanPair st p.1 p.2) ps) d = some p.2
      exact getDir_scanPairs_mono d ps _ p.2
        (getDir_scanPair_assign st p.1 p.2 d hm hother hd)
    · have hm' : dirMatches d p.1 = false := by
        cases hw : dirMatches d p.1
        · rfl
        · exact absurd hw hm
      rw [@List.find?_cons_of_neg _ (fun q => dirMatches d q.1) p ps
        (by simp [hm'])]
      show getDir (scanPairs (scanPair st p.1 p.2) ps) d =
        (ps.find? (fun p => dirMatches d p.1)).map Prod.snd
      exact ih _ (fun q hq => hu q (List.mem_cons_of_mem p hq))
        (by rw [getDir_scanPair_of_not_match st p.1 p.2 d hm']; exact hd)

theorem extractVolumes_no_match_empty (tables : List (List String))
    (hno : ∀ t ∈ tables, ∀ p ∈ cellPairs t, ∀ d : Direction,
      dirMatches d p.1 = false) :
    extractVolumes tables = .ok ⟨none, none, none, none⟩ := by
  have hdir : ∀ d : Direction, getDir (extractScan tables) d = none := by
    intro d
    rw [extractScan_eq, getDir_scanPairs_no_match d _ _ ?hp]
    · cases d <;> rfl
    case hp =>
      intro p hp
      obtain ⟨t, ht, hpt⟩ := List.mem_flatMap.mp hp
      exact hno t ht p hpt d
  have hW : (extractScan tables).wb = none := hdir .west
  have hE : (extractScan tables).eb = none := hdir .east
  have hN : (extractScan tables).nb = none := hdir .north
  have hS : (extractScan tables).sb = none := hdir .south
  have hparse : readingParses (extractScan tables) = true := by
    simp [readingParses, hW, hE, hN, hS, volumeParses]
  rw [extractVolumes_ok tables hparse]
  show Except.ok
      (⟨parseVolumeValue (extractScan tables).wb,
        parseVolumeValue (extractScan tables).eb,
        parseVolumeValue (extractScan tables).nb,
        parseVolumeValue (extractScan tables).sb⟩ : VolumeReading) =
    Except.ok ⟨none, none, none, none⟩
  rw [hW, hE, hN, hS]
  rfl

/-- C6 states a behaviour the code intends — the `else: return ''` arm and
the guard exist precisely to degrade bad values instead of raising — but
fails to deliver: the superscript-two character passes `str.isdigit()`
while `int` rejects it, so at the body whose westbound value is `"²"` the
extraction step raises `ValueError` out of the task instead of returning
a `VolumeReading`.  The degenerate half of the claim does hold: a body
with no matching table (and the empty table list) yields the all-empty
reading. -/
theorem c6_isdigit_int_mismatch :
    pyIsDigit "²" = true ∧
    decimalDigits "²" = false ∧
    extractVolumes [["Westbound Total Volume", "²"]] =
      .error "invalid literal for int" ∧
    extractVolumes noDataBody = .ok ⟨none, none, none, none⟩ ∧
    extractVolumes [] = .ok ⟨none, none, none, none⟩ :=
  ⟨by decide, by decide, rfl, rfl, rfl⟩

/-- C7 is refuted as stated: in `dupEastBody` two label/value pairs match
the eastbound phrase, the first matching label in document order carries
the value `"5"`, yet extraction assigns eastbound the second value `"7"` —
the first label also matches the westbound phrase, and the `elif` chain
lets the westbound arm consume it. -/
theorem c7_counterexample :
    dirMatches .east ambiguousLabel = true ∧
    ((dupEastBody.flatMap cellPairs).find?
        (fun p => dirMatches .east p.1)).map Prod.snd = some "5" ∧
    getDir (extractScan dupEastBody) .east = some "7" := by
  refine ⟨by decide, by decide, by decide⟩

/-- C7 (amended): provided every matching label matches exactly one
direction phrase — true of every well-formed metric table, and what the
duplicate-table scenario of the claim produces — each direction is
assigned the value paired with the first label in document order matching
its phrase, and every later duplicate match is ignored.  (A label matching
several phrases is instead consumed by the earliest unassigned direction
in the fixed order west, east, north, south.) -/
theorem c7_first_match_wins (tables : List (List String)) (d : Direction)
    (hu : ∀ t ∈ tables, ∀ p ∈ cellPairs t, ∀ d₁ d₂,
      dirMatches d₁ p.1 = true → dirMatches d₂ p.1 = true → d₁ = d₂) :
    getDir (extractScan tables) d =
      ((tables.flatMap cellPairs).find?
        (fun p => dirMatches d p.1)).map Prod.snd := by
  rw [extractScan_eq]
  refine getDir_scanPairs_first d (tables.flatMap cellPairs) emptyScan ?_ ?_
  · intro p hp
    obtain ⟨t, ht, hpt⟩ := List.mem_flatMap.mp hp
    exact hu t ht p hpt
  · cases d <;> rfl

/-- Witness for C7 (amended): two tables both reporting a westbound total
volume yield the value of the first occurrence only. -/
theorem c7_first_match_wins_witness :
    (∀ t ∈ dupWestBody, ∀ p ∈ cellPairs t, ∀ d₁ d₂,
      dirMatches d₁ p.1 = true → dirMatches d₂ p.1 = true → d₁ = d₂) ∧
    getDir (extractScan dupWestBody) .west = some "111" := by
  have hu : ∀ t ∈ dupWestBody, ∀ p ∈ cellPairs t, ∀ d₁ d₂,
      dirMatches d₁ p.1 = true → dirMatches d₂ p.1 = true → d₁ = d₂ := by
    decide
  exact ⟨hu, (c7_first_match_wins dupWestBody .west hu).trans (by decide)⟩

/-- C8 states the intended dichotomy — parse the stripped value as a
non-negative integer, or degrade to an empty field, never an error — and
the code delivers it at the claim's own examples (`"1,234"` to `1234`,
`"N/A"` to empty); but at `"15²"` it does neither: the stripped value
passes `str.isdigit()` (the code's own notion of purely digits) while
`int` raises `ValueError` on the superscript, so `parse_volume` raises
instead of returning an empty reading. -/
theorem c8_isdigit_int_mismatch :
    parse_volume (some "1,234") = .ok (some 1234) ∧
    parse_volume (some "N/A") = .ok none ∧
    pyIsDigit (stripCommas "15²") = true ∧
    decimalDigits (stripCommas "15²") = false ∧
    parse_volume (some "15²") = .error "invalid literal for int" :=
  ⟨rfl, rfl, by decide, by decide, rfl⟩

theorem chunked_foldl_rows (g : HarvestTask → Option DataRow) :
    ∀ (fuel : Nat) (l : List HarvestTask) (acc : List SinkLine) (n : Nat),
      l.length ≤ fuel →
      (chunkedAux n fuel l).foldl
          (fun sk batch => sk ++ (batch.filterMap g).map SinkLine.row) acc =
        acc ++ (l.filterMap g).map SinkLine.row := by
  intro fuel
  induction fuel with
  | zero =>
    intro l acc n hl
    have hnil : l = [] := List.eq_nil_of_length_eq_zero (by omega)
    subst hnil
    simp [chunkedAux]
  | succ f ih =>
    intro l acc n hl
    cases l with
    | nil => simp [chunkedAux]
    | cons x xs =>
      have hxs : xs.length ≤ f := by
        simp only [List.length_cons] at hl
        omega
      show ((x :: xs.take (n - 1)) :: chunkedAux n f (xs.drop (n - 1))).foldl
          (fun sk batch => sk ++ (batch.filterMap g).map SinkLine.row) acc =
        acc ++ ((x :: xs).filterMap g).map SinkLine.row
      rw [List.foldl_cons,
        ih (xs.drop (n - 1)) _ n (by rw [List.length_drop]; omega)]
      rw [List.append_assoc, ← List.map_append, ← List.filterMap_append]
      have hx : (x :: xs.take (n - 1)) ++ xs.drop (n - 1) = x :: xs := by
        rw [List.cons_append, List.take_append_drop]
      rw [hx]

theorem runBatches_eq (env : HarvestTask → TaskEnv) (tasks : List HarvestTask)
    (sink : List SinkLine) :
    runBatches env tasks sink =
      sink ++ (tasks.filterMap (taskSinkRow env)).map SinkLine.row :=
  chunked_foldl_rows (taskSinkRow env) tasks.length tasks sink batchSize
    (Nat.le_refl _)

theorem taskSinkRow_fields (env : HarvestTask → TaskEnv) (t : HarvestTask)
    (r : DataRow) (h : taskSinkRow env t = some r) :
    r.signalID = t.signal_id ∧ r.startDate = t.interval_start ∧
      r.endDate = t.interval_end := by
  cases hres : (robust_post (env t).oracle fetchMaxRetries fetchBackoff).result with
  | success a =>
    cases hbody : (env t).body with
    | error e =>
      simp [taskSinkRow, fetch_data_for_interval, hres, hbody] at h
    | ok tables =>
      cases hext : extractVolumes tables with
      | error e =>
        simp [taskSinkRow, fetch_data_for_interval, hres, hbody, hext] at h
      | ok rd =>
        simp [taskSinkRow, fetch_data_for_interval, hres, hbody, hext] at h
        rw [← h]
        exact ⟨rfl, rfl, rfl⟩
  | terminalFailure a s =>
    simp [taskSinkRow, fetch_data_for_interval, hres] at h
  | retriesExhausted =>
    simp [taskSinkRow, fetch_data_for_interval, hres] at h

theorem task_eq_of_fields (t t' : HarvestTask)
    (h1 : t.signal_id = t'.signal_id)
    (h2 : t.interval_start = t'.interval_start)
    (h3 : t.interval_end = t'.interval_end) : t = t' := by
  cases t
  cases t'
  simp_all

theorem header_cons_rows_props (rows : List DataRow) :
    (SinkLine.header :: rows.map SinkLine.row).count SinkLine.header = 1 ∧
    (SinkLine.header :: rows.map SinkLine.row).head? = some SinkLine.header ∧
    ∀ r, SinkLine.row r ∈ SinkLine.header :: rows.map SinkLine.row →
      r ∈ rows := by
  refine ⟨?_, rfl, ?_⟩
  · rw [List.count_cons_self]
    have hz : (rows.map SinkLine.row).count SinkLine.header = 0 := by
      rw [List.count_eq_zero]
      intro hmem
      obtain ⟨q, _, hq⟩ := List.mem_map.mp hmem
      exact SinkLine.noConfusion hq
    omega
  · intro r hr
    rcases List.mem_cons.mp hr with hr | hr
    · exact absurd hr (fun hh => SinkLine.noConfusion hh)
    · obtain ⟨q, hq, hqe⟩ := List.mem_map.mp hr
      cases hqe
      exact hq

/-- C4 is refuted as stated: a task whose transport call succeeds with
status 200 and whose body is readable can still append no row — when a
value such as `"²"` passes the `isdigit()` guard but `int` rejects it,
extraction raises, the exception escapes the task, and the sink receives
nothing for it. -/
theorem c4_counterexample :
    (robust_post envDigitTrap.oracle fetchMaxRetries fetchBackoff).result =
      .success 1 ∧
    envDigitTrap.oracle 1 = .resp 200 ∧
    envDigitTrap.body = .ok [["Westbound Total Volume", "²"]] ∧
    fetch_data_for_interval envDigitTrap sampleTask =
      .error "invalid literal for int" ∧
    taskSinkRow (fun _ => envDigitTrap) sampleTask = none :=
  ⟨by decide, rfl, rfl, rfl, rfl⟩

/-- C4 (amended): once a task's body is readable and its extraction
completes — no collected value passes the `isdigit()` guard while being
rejected by `int` (`readingParses`) — a transport call that succeeds
(`robust_post` returns a response, which happens only with status 200 —
second conjunct) leads to exactly one row being appended for the task,
the row built from the extracted reading even when all four readings are
empty; a transport call ending in a terminal failure or in retry
exhaustion produces no sink row for the task, unconditionally. -/
theorem c4_row_policy (env : TaskEnv) (t : HarvestTask)
    (tables : List (List String)) (hbody : env.body = .ok tables) :
    (readingParses (extractScan tables) = true →
      (∃ a, (robust_post env.oracle fetchMaxRetries fetchBackoff).result =
        .success a) →
      fetch_data_for_interval env t =
        .ok (some (mkRow t (extractValue tables)))) ∧
    (∀ a, (robust_post env.oracle fetchMaxRetries fetchBackoff).result =
        .success a → env.oracle a = .resp 200) ∧
    (((robust_post env.oracle fetchMaxRetries fetchBackoff).result =
        .retriesExhausted ∨
      (∃ a s, (robust_post env.oracle fetchMaxRetries fetchBackoff).result =
        .terminalFailure a s)) →
      fetch_data_for_interval env t = .ok none) := by
  refine ⟨?_, ?_, ?_⟩
  · rintro hparse ⟨a, ha⟩
    simp [fetch_data_for_interval, ha, hbody, extractVolumes_ok tables hparse]
  · intro a ha
    exact robustPostAux_success_oracle env.oracle fetchBackoff fetchMaxRetries
      1 a ha
  · rintro (hx | ⟨a, s, hx⟩) <;> simp [fetch_data_for_interval, hx]

/-- Witness for C4 (amended): a task whose transport succeeds at once on an
empty body gets exactly one row, with all four fields empty (a placeholder
row, not an omission); a task whose transport exhausts its retries gets
none. -/
theorem c4_row_policy_witness :
    envEmptyOk.body = .ok [] ∧
    readingParses (extractScan []) = true ∧
    (robust_post envEmptyOk.oracle fetchMaxRetries fetchBackoff).result =
      .success 1 ∧
    fetch_data_for_interval envEmptyOk sampleTask =
      .ok (some (emptyRowOf sampleTask)) ∧
    envEmptyOk.oracle 1 = .resp 200 ∧
    (robust_post envExhausted.oracle fetchMaxRetries fetchBackoff).result =
      .retriesExhausted ∧
    fetch_data_for_interval envExhausted sampleTask = .ok none := by
  have h1 := c4_row_policy envEmptyOk sampleTask [] rfl
  have h2 := c4_row_policy envExhausted sampleTask [] rfl
  exact ⟨rfl, by decide, by decide, h1.1 (by decide) ⟨1, by decide⟩,
    h1.2.1 1 (by decide), by decide, h2.2.2 (Or.inl (by decide))⟩

/-- C5: after every run of the coordinator the sink contains exactly one
header line, placed before any data row, and every data row corresponds
to exactly one dispatched task — the unique `HarvestTask` whose signal id,
interval start and interval end are the row's. -/
theorem c5_header_once_and_correspondence (probe : ProbeResult)
    (env : HarvestTask → TaskEnv) (signal_ids : List String)
    (intervals : List (String × String)) :
    (fetch_approach_volume_data probe env signal_ids intervals).count
        SinkLine.header = 1 ∧
    (fetch_approach_volume_data probe env signal_ids intervals).head? =
      some SinkLine.header ∧
    ∀ r, SinkLine.row r ∈
        fetch_approach_volume_data probe env signal_ids intervals →
      ∃! t : HarvestTask, t ∈ buildTasks signal_ids intervals ∧
        r.signalID = t.signal_id ∧ r.startDate = t.interval_start ∧
        r.endDate = t.interval_end := by
  have main : ∀ rows : List DataRow,
      fetch_approach_volume_data probe env signal_ids intervals =
        SinkLine.header :: rows.map SinkLine.row →
      (∀ r ∈ rows, ∃ t ∈ buildTasks signal_ids intervals,
        taskSinkRow env t = some r) →
      (fetch_approach_volume_data probe env signal_ids intervals).count
          SinkLine.header = 1 ∧
      (fetch_approach_volume_data probe env signal_ids intervals).head? =
        some SinkLine.header ∧
      ∀ r, SinkLine.row r ∈
          fetch_approach_volume_data probe env signal_ids intervals →
        ∃! t : HarvestTask, t ∈ buildTasks signal_ids intervals ∧
          r.signalID = t.signal_id ∧ r.startDate = t.interval_start ∧
          r.endDate = t.interval_end := by
    intro rows hout hsrc
    obtain ⟨hc, hh, hm⟩ := header_cons_rows_props rows
    rw [hout]
    refine ⟨hc, hh, ?_⟩
    intro r hr
    obtain ⟨t, ht, hrow⟩ := hsrc r (hm r hr)
    obtain ⟨f1, f2, f3⟩ := taskSinkRow_fields env t r hrow
    refine ⟨t, ⟨ht, f1, f2, f3⟩, ?_⟩
    rintro t' ⟨_, g1, g2, g3⟩
    exact task_eq_of_fields t' t (g1 ▸ f1) (g2 ▸ f2) (g3 ▸ f3)
  cases probe with
  | status s =>
    by_cases hs : s = 200
    · subst hs
      refine main ((buildTasks signal_ids intervals).filterMap
        (taskSinkRow env)) ?_ ?_
      · show runBatches env (buildTasks signal_ids intervals)
          [SinkLine.header] = _
        rw [runBatches_eq]
        rfl
      · intro r hr
        obtain ⟨t, ht, hrow⟩ := List.mem_filterMap.mp hr
        exact ⟨t, ht, hrow⟩
    · exact main [] (by simp [fetch_approach_volume_data, hs]) (by simp)
  | raised => exact main [] rfl (by simp)

/-- Witness for C5: a one-signal, one-interval run writes one header first
and its single data row corresponds to the unique dispatched task. -/
theorem c5_header_once_and_correspondence_witness :
    (fetch_approach_volume_data (.status 200) envServerOk ["7115"]
        [("01/01/2024 12:00:00 AM", "01/01/2024 12:15:00 AM")]).count
      SinkLine.header = 1 ∧
    (fetch_approach_volume_data (.status 200) envServerOk ["7115"]
        [("01/01/2024 12:00:00 AM", "01/01/2024 12:15:00 AM")]).head? =
      some SinkLine.header ∧
    SinkLine.row (emptyRowOf sampleTask) ∈
      fetch_approach_volume_data (.status 200) envServerOk ["7115"]
        [("01/01/2024 12:00:00 AM", "01/01/2024 12:15:00 AM")] ∧
    ∃! t : HarvestTask,
      t ∈ buildTasks ["7115"]
        [("01/01/2024 12:00:00 AM", "01/01/2024 12:15:00 AM")] ∧
      (emptyRowOf sampleTask).signalID = t.signal_id ∧
      (emptyRowOf sampleTask).startDate = t.interval_start ∧
      (emptyRowOf sampleTask).endDate = t.interval_end := by
  have h := c5_header_once_and_correspondence (.status 200) envServerOk
    ["7115"] [("01/01/2024 12:00:00 AM", "01/01/2024 12:15:00 AM")]
  have hmem : SinkLine.row (emptyRowOf sampleTask) ∈
      fetch_approach_volume_data (.status 200) envServerOk ["7115"]
        [("01/01/2024 12:00:00 AM", "01/01/2024 12:15:00 AM")] := by decide
  exact ⟨h.1, h.2.1, hmem, h.2.2 (emptyRowOf sampleTask) hmem⟩

/-- C9 is refuted as stated for the server-embedded coordinator copy it
cites: that copy performs no liveness probe at all, so even in an
environment where a GET to the service root would raise, the run proceeds
to dispatch its tasks and writes their data rows. -/
theorem c9_counterexample :
    fetch_approach_volume_data_server .raised envServerOk ["7115"]
        [("01/01/2024 12:00:00 AM", "01/01/2024 12:15:00 AM")] =
      [SinkLine.header, SinkLine.row (emptyRowOf sampleTask)] := by decide

/-- C9 (amended): the `Traffic_Data/fetch_volume.py` coordinator performs
the one-time liveness probe and gates dispatch on it — a non-200 status or
an exception leaves the sink with the already-written header and no task
dispatched, while a 200 probe proceeds to dispatch every task; the
server-embedded copy never issues the probe (see the counterexample). -/
theorem c9_probe_gates_dispatch (env : HarvestTask → TaskEnv)
    (signal_ids : List String) (intervals : List (String × String)) :
    (∀ s, s ≠ 200 →
      fetch_approach_volume_data (.status s) env signal_ids intervals =
        [SinkLine.header]) ∧
    fetch_approach_volume_data .raised env signal_ids intervals =
      [SinkLine.header] ∧
    fetch_approach_volume_data (.status 200) env signal_ids intervals =
      SinkLine.header ::
        ((buildTasks signal_ids intervals).filterMap (taskSinkRow env)).map
          SinkLine.row := by
  refine ⟨?_, rfl, ?_⟩
  · intro s hs
    simp [fetch_approach_volume_data, hs]
  · show runBatches env (buildTasks signal_ids intervals) [SinkLine.header] = _
    rw [runBatches_eq]
    rfl

/-- Witness for C9 (amended): a 503 probe and a raising probe both leave
the sink with only the header. -/
theorem c9_probe_gates_dispatch_witness :
    (503 : Nat) ≠ 200 ∧
    fetch_approach_volume_data (.status 503) envServerOk ["7115"]
        [("01/01/2024 12:00:00 AM", "01/01/2024 12:15:00 AM")] =
      [SinkLine.header] ∧
    fetch_approach_volume_data .raised envServerOk ["7115"]
        [("01/01/2024 12:00:00 AM", "01/01/2024 12:15:00 AM")] =
      [SinkLine.header] := by
  have h := c9_probe_gates_dispatch envServerOk ["7115"]
    [("01/01/2024 12:00:00 AM", "01/01/2024 12:15:00 AM")]
  exact ⟨by decide, h.1 503 (by decide), h.2.1⟩

/-- C10: when in a batch of three tasks the middle one raises an
unexpected error while its siblings succeed, the siblings' rows are still
written (exactly two new rows, in order), the failing task's error is
captured rather than propagated, and the run continues with all
subsequent tasks, whose rows are appended as usual. -/
theorem c10_batch_isolation (env : HarvestTask → TaskEnv)
    (t1 t2 t3 : HarvestTask) (rest : List HarvestTask) (r1 r3 : DataRow)
    (h1 : fetch_data_for_interval (env t1) t1 = .ok (some r1))
    (h2 : ∃ msg, fetch_data_for_interval (env t2) t2 = .error msg)
    (h3 : fetch_data_for_interval (env t3) t3 = .ok (some r3)) :
    batchRows env [t1, t2, t3] = [r1, r3] ∧
    runBatches env ([t1, t2, t3] ++ rest) [SinkLine.header] =
      [SinkLine.header, SinkLine.row r1, SinkLine.row r3] ++
        (rest.filterMap (taskSinkRow env)).map SinkLine.row := by
  obtain ⟨msg, h2⟩ := h2
  have g1 : taskSinkRow env t1 = some r1 := by simp [taskSinkRow, h1]
  have g2 : taskSinkRow env t2 = none := by simp [taskSinkRow, h2]
  have g3 : taskSinkRow env t3 = some r3 := by simp [taskSinkRow, h3]
  constructor
  · show [t1, t2, t3].filterMap (taskSinkRow env) = [r1, r3]
    simp [List.filterMap_cons, g1, g2, g3]
  · rw [runBatches_eq]
    show [SinkLine.header] ++
        ((t1 :: t2 :: t3 :: rest).filterMap (taskSinkRow env)).map
          SinkLine.row = _
    simp [List.filterMap_cons, g1, g2, g3]

/-- Witness for C10: three sibling tasks where the middle one's body read
raises — the sink gains exactly the first and third tasks' rows. -/
theorem c10_batch_isolation_witness :
    fetch_data_for_interval (envMiddleRaises sampleTask) sampleTask =
      .ok (some (emptyRowOf sampleTask)) ∧
    fetch_data_for_interval (envMiddleRaises sampleTask2) sampleTask2 =
      .error "connection reset" ∧
    batchRows envMiddleRaises [sampleTask, sampleTask2, sampleTask3] =
      [emptyRowOf sampleTask, emptyRowOf sampleTask3] ∧
    runBatches envMiddleRaises [sampleTask, sampleTask2, sampleTask3]
        [SinkLine.header] =
      [SinkLine.header, SinkLine.row (emptyRowOf sampleTask),
        SinkLine.row (emptyRowOf sampleTask3)] := by
  have h := c10_batch_isolation envMiddleRaises sampleTask sampleTask2
    sampleTask3 [] (emptyRowOf sampleTask) (emptyRowOf sampleTask3)
    rfl ⟨"connection reset", rfl⟩ rfl
  refine ⟨rfl, rfl, h.1, ?_⟩
  have h2 := h.2
  simpa using h2
